import Mathlib

/-!
Shallow embedding of `src/time-to-review.js`: the review-time classifier
(`calculateReviewTime`, `isDocOrMetadataFile`, `getReviewLabel`,
`getLabelColor`) and the label-synchronizing phase of `run`
(`removeExistingTimeLabels` followed by adding the computed label).
JavaScript numbers are modelled by exact rationals, `Math.round` by
`jsRound`, regular-expression tests by structurally recursive functions on
character lists, and the set of labels on the pull request by a
`Finset String`.
-/

/-- One changed file of the pull request, as returned by the files API:
filename plus per-file added and deleted line counts. -/
structure FileChange where
  filename : String
  additions : ℕ
  deletions : ℕ
deriving DecidableEq

/-- Diff stats of a commit (the optional `commit.stats` object). -/
structure CommitStats where
  additions : ℕ
  deletions : ℕ
deriving DecidableEq

/-- One commit: the full message and optional stats (`commit.stats` may be
absent, in which case the size check is skipped for that commit). -/
structure Commit where
  message : String
  stats : Option CommitStats
deriving DecidableEq

/-- The pull-request record as the classifier uses it: only the body, which
may be absent (`null`). An empty-string body behaves like an absent one,
since both are shorter than 50 characters. -/
structure PullRequestSnapshot where
  body : Option String
deriving DecidableEq

/-- JavaScript `includes`: the pattern occurs as a contiguous substring. -/
def hasInfix : List Char → List Char → Bool
  | [], pat => pat.isEmpty
  | c :: rest, pat => pat.isPrefixOf (c :: rest) || hasInfix rest pat

/-- Lowercased character list of a string, JavaScript `toLowerCase`. -/
def lowerChars (s : String) : List Char :=
  s.toList.map Char.toLower

/-- Extension extraction of source line 181, `split('.').pop().toLowerCase()`:
the characters after the last dot (the whole name when there is no dot),
lowercased. -/
def lastExtLower (filename : String) : List Char :=
  ((filename.toList.reverse.takeWhile (fun c => !(c = '.'))).reverse).map Char.toLower

/-- Documentation extensions of source line 182. -/
def docExtensions : List String := ["md", "txt", "rst", "adoc"]

/-- Documentation filename patterns of source lines 187-191. -/
def docNamePatterns : List String :=
  ["readme", "changelog", "license", "contributing", "authors"]

/-- Metadata filename tokens of source lines 196-199. -/
def metadataTokens : List String :=
  [".gitignore", ".editorconfig", ".prettierrc", ".eslintrc",
   "package.json", "package-lock.json", "yarn.lock",
   "tsconfig.json", "tslint.json", ".npmrc", ".npmignore",
   ".github", ".vscode", ".idea"]

/-- Classification of a changed file as documentation or metadata, source
lines 179-212: extension test, documentation name patterns, metadata
tokens, then documentation directory prefixes. -/
def isDocOrMetadataFile (filename : String) : Bool :=
  if docExtensions.any (fun e => e.toList == lastExtLower filename) then
    true
  else if docNamePatterns.any (fun pat => hasInfix (lowerChars filename) pat.toList) then
    true
  else if metadataTokens.any (fun meta => hasInfix (lowerChars filename) (lowerChars meta)) then
    true
  else if "docs/".toList.isPrefixOf filename.toList
      || "documentation/".toList.isPrefixOf filename.toList
      || "wiki/".toList.isPrefixOf filename.toList then
    true
  else
    false

/-- Complex source-code extensions of source line 113. -/
def complexExtensions : List String :=
  ["js", "jsx", "ts", "tsx", "py", "java", "cpp", "c", "go", "rs"]

/-- Characters of the regex class of letters, digits, dash and underscore
used for the commit scope. -/
def isScopeChar (c : Char) : Bool :=
  c.isAlpha || c.isDigit || c = '-' || c = '_'

/-- Characters matched by the regex dot: anything except a line terminator. -/
def isRegexDotChar (c : Char) : Bool :=
  !(c = '\n' || c = '\r' || c = '\u2028' || c = '\u2029')

/-- Matching of the regex tail of colon, space and a nonempty description. -/
def matchesColonDescL : List Char → Bool
  | ':' :: ' ' :: c :: _ => isRegexDotChar c
  | _ => false

/-- Matching of the anchored regex of a literal commit type, an optional
nonempty parenthesized scope, a colon, a space and a description, against a
line. When a parenthesis opens but the scope part fails, the regex can only
backtrack to the empty scope alternative, which then needs a colon at the
opening parenthesis and fails, so the whole match fails. -/
def matchesTypePatternL (ty cs : List Char) : Bool :=
  if ty.isPrefixOf cs then
    match cs.drop ty.length with
    | '(' :: afterParen =>
      let inner := afterParen.takeWhile isScopeChar
      if inner.isEmpty then false
      else
        match afterParen.drop inner.length with
        | ')' :: r => matchesColonDescL r
        | _ => false
    | rest => matchesColonDescL rest
  else false

/-- Matching of one commit-type regex of source lines 146-158 on a line. -/
def matchesType (ty : String) (line : List Char) : Bool :=
  matchesTypePatternL ty.toList line

/-- The type vocabulary of the conventional-commits regex of source line 134. -/
def conventionalTypes : List String :=
  ["feat", "fix", "docs", "style", "refactor", "perf", "test", "build", "ci", "chore", "revert"]

/-- Test of the conventional-commits regex of source line 134 on a line:
alternation over the fixed type vocabulary, then the shared suffix. -/
def isConventional (line : List Char) : Bool :=
  conventionalTypes.any (fun ty => matchesType ty line)

/-- First line of a commit message, source lines 135 and 145: the characters
before the first newline. -/
def firstLineL (message : String) : List Char :=
  message.toList.takeWhile (fun c => !(c = '\n'))

/-- Review-time weight of a commit by its type, source lines 146-161. -/
def typeWeight (line : List Char) : ℚ :=
  if matchesType "feat" line then 2
  else if matchesType "fix" line then 3/2
  else if matchesType "refactor" line then 5/2
  else if matchesType "revert" line then 1
  else if matchesType "docs" line then 1/2
  else 0

/-- Large-commit test of source line 140: over 300 changed lines; skipped
when the commit has no stats. -/
def isLargeCommit (c : Commit) : Bool :=
  match c.stats with
  | some s => decide (s.additions + s.deletions > 300)
  | none => false

/-- Factor 1, source lines 81-96: 0.5 minutes per non-doc file, capped at 15. -/
def fileCountFactor (files : List FileChange) : ℚ :=
  min (((files.filter (fun f => !isDocOrMetadataFile f.filename)).length : ℚ) * (1/2)) 15

/-- Weighted added lines, source lines 103-108: documentation and metadata
files count only a 0.2 fraction of their changes. -/
def addedLines (files : List FileChange) : ℚ :=
  files.foldl
    (fun acc f =>
      acc + (f.additions : ℚ) * (if isDocOrMetadataFile f.filename then 1/5 else 1)) 0

/-- Weighted deleted lines, source lines 103-108. -/
def deletedLines (files : List FileChange) : ℚ :=
  files.foldl
    (fun acc f =>
      acc + (f.deletions : ℚ) * (if isDocOrMetadataFile f.filename then 1/5 else 1)) 0

/-- Factor 2, source lines 119-120: 0.01 minutes per weighted changed line,
capped at 10. -/
def lineVolumeFactor (files : List FileChange) : ℚ :=
  min ((addedLines files + deletedLines files) * (1/100)) 10

/-- Complex file changes, source lines 110-116: non-doc files whose
extension is in the fixed source-code set. -/
def complexFileChanges (files : List FileChange) : ℕ :=
  (files.filter (fun f =>
    !isDocOrMetadataFile f.filename
      && complexExtensions.any (fun e => e.toList == lastExtLower f.filename))).length

/-- Factor 3, source line 123: 0.5 minutes per complex file. -/
def complexFactor (files : List FileChange) : ℚ :=
  (complexFileChanges files : ℚ) * (1/2)

/-- The fixed type weights summed over the commits, source lines 144-161. -/
def typeWeightScore (commits : List Commit) : ℚ :=
  commits.foldl (fun acc c => acc + typeWeight (firstLineL c.message)) 0

/-- Unconventional-commit counter, source lines 132-137. -/
def unconventionalCommits (commits : List Commit) : ℕ :=
  (commits.filter (fun c => !isConventional (firstLineL c.message))).length

/-- Large-commit counter, source lines 139-142. -/
def largeCommits (commits : List Commit) : ℕ :=
  (commits.filter isLargeCommit).length

/-- Factor 4 in full, source lines 125-165: the type weights plus 0.5 per
unconventional commit plus 1 per large commit. -/
def commitFactor (commits : List Commit) : ℚ :=
  typeWeightScore commits + (unconventionalCommits commits : ℚ) * (1/2)
    + (largeCommits commits : ℚ) * 1

/-- Factor 5, source lines 167-170: 2 minutes when the pull-request
description is absent or shorter than 50 characters. -/
def descriptionFactor (pullRequest : PullRequestSnapshot) : ℚ :=
  match pullRequest.body with
  | none => 2
  | some b => if b.length < 50 then 2 else 0

/-- Accumulated score of the non-documentation-only path, source lines
80-170. -/
def totalScore (pullRequest : PullRequestSnapshot) (commits : List Commit)
    (files : List FileChange) : ℚ :=
  fileCountFactor files + lineVolumeFactor files + complexFactor files
    + commitFactor commits + descriptionFactor pullRequest

/-- JavaScript rounding: floor of the value plus one half, rounding halves
toward positive infinity. -/
def jsRound (q : ℚ) : ℤ := ⌊q + 1/2⌋

/-- The classifier, source lines 69-174: documentation-only pull requests
(including an empty file list, for which `every` is vacuously true)
short-circuit to 1 minute; otherwise the score is rounded and clamped below
by 1. -/
def calculateReviewTime (pullRequest : PullRequestSnapshot) (commits : List Commit)
    (files : List FileChange) : ℤ :=
  if files.all (fun f => isDocOrMetadataFile f.filename) then 1
  else max 1 (jsRound (totalScore pullRequest commits files))

/-- The ordered bucket list of source line 218. -/
def timeOptions : List ℤ := [1, 5, 10, 15, 20, 30]

/-- Label selection, source lines 217-229: the first bucket at least the
computed minutes, or the largest bucket when every one is exceeded. -/
def getReviewLabel (minutes : ℤ) : String :=
  match timeOptions.find? (fun option => decide (minutes ≤ option)) with
  | some option => toString option ++ " min review"
  | none => toString (timeOptions.getLastD 30) ++ " min review"

/-- Label color, source lines 237-245. -/
def getLabelColor (minutes : ℤ) : String :=
  if minutes ≤ 1 then "2da44e"
  else if minutes ≤ 10 then "ffd700"
  else "d73a4a"

/-- Test of the anchored time-label regex of source line 295: the whole name
is a nonempty digit run followed by the literal text " min review". -/
def isTimeLabel (name : String) : Bool :=
  !(name.toList.takeWhile Char.isDigit).isEmpty
    && name.toList.drop (name.toList.takeWhile Char.isDigit).length == " min review".toList

/-- Removal phase of the synchronizer, source lines 286-305, acting on the
label set of the pull request: every label matching the time pattern is
removed, one by one; with zero matches the loop body never runs. -/
def removeExistingTimeLabels (labels : Finset String) : Finset String :=
  labels.filter (fun name => ¬ isTimeLabel name = true)

/-- The addLabels call of source lines 52-57: the target joins the set. -/
def addLabel (labels : Finset String) (target : String) : Finset String :=
  insert target labels

/-- Label-synchronizing phase of run, source lines 45-57: remove the
existing time labels, then add the computed label. -/
def syncLabels (labels : Finset String) (target : String) : Finset String :=
  addLabel (removeExistingTimeLabels labels) target

/-- The six label names the system can produce. -/
def bucketLabels : List String :=
  ["1 min review", "5 min review", "10 min review",
   "15 min review", "20 min review", "30 min review"]

/-- Specification-side bucket selection, stated from the words of the spec:
walk the ordered bucket list ascending and take the first value at least
minutes; when minutes exceeds every bucket, the largest, 30, is chosen. -/
def spec_bucket (minutes : ℤ) : ℤ :=
  (timeOptions.filter (fun b => decide (minutes ≤ b))).headD 30

/-- Specification-side per-commit contribution of the commit factor, for
the amended claim C3: the fixed type weight, plus 0.5 when the first line
fails the conventional pattern for every type of the full vocabulary, plus
1 for a large commit (stats present and over 300 changed lines). -/
def spec_commitContribution (c : Commit) : ℚ :=
  typeWeight (firstLineL c.message)
    + (if isConventional (firstLineL c.message) then 0 else 1/2)
    + (if isLargeCommit c then 1 else 0)

/-- Per-commit contribution exactly as claim C3 words it: 0.5 for every
commit whose first line does not parse with one of the five weighted
types, even when it is conventional with another type such as style or
test. -/
def claim_commitContribution (c : Commit) : ℚ :=
  typeWeight (firstLineL c.message)
    + (if matchesType "feat" (firstLineL c.message)
        || matchesType "fix" (firstLineL c.message)
        || matchesType "refactor" (firstLineL c.message)
        || matchesType "revert" (firstLineL c.message)
        || matchesType "docs" (firstLineL c.message) then 0 else 1/2)
    + (if isLargeCommit c then 1 else 0)

/-- Rank of a label color, to state monotonicity: green 0, yellow 1, red 2. -/
def colorRank (color : String) : ℕ :=
  if color = "2da44e" then 0 else if color = "ffd700" then 1 else 2

/-- Folding of an accumulate-add loop equals the initial value plus the sum
of the per-element contributions. -/
theorem foldl_add_map {α : Type} (w : α → ℚ) (l : List α) (init : ℚ) :
    l.foldl (fun acc x => acc + w x) init = init + (l.map w).sum := by
  induction l generalizing init with
  | nil => simp
  | cons x xs ih => simp [ih, add_assoc]

/-- Evaluation of the label-selection walk against the specification-side
minimum-bucket rule, by cases on the position of minutes. -/
theorem getReviewLabel_eq_spec (m : ℤ) :
    getReviewLabel m = toString (spec_bucket m) ++ " min review" := by
  by_cases h1 : m ≤ 1
  · have h5 : m ≤ 5 := by omega
    have h10 : m ≤ 10 := by omega
    have h15 : m ≤ 15 := by omega
    have h20 : m ≤ 20 := by omega
    have h30 : m ≤ 30 := by omega
    simp [getReviewLabel, spec_bucket, timeOptions, List.find?, h1, h5, h10, h15, h20, h30]
  · by_cases h5 : m ≤ 5
    · have h10 : m ≤ 10 := by omega
      have h15 : m ≤ 15 := by omega
      have h20 : m ≤ 20 := by omega
      have h30 : m ≤ 30 := by omega
      simp [getReviewLabel, spec_bucket, timeOptions, List.find?, h1, h5, h10, h15, h20, h30]
    · by_cases h10 : m ≤ 10
      · have h15 : m ≤ 15 := by omega
        have h20 : m ≤ 20 := by omega
        have h30 : m ≤ 30 := by omega
        simp [getReviewLabel, spec_bucket, timeOptions, List.find?, h1, h5, h10, h15, h20, h30]
      · by_cases h15 : m ≤ 15
        · have h20 : m ≤ 20 := by omega
          have h30 : m ≤ 30 := by omega
          simp [getReviewLabel, spec_bucket, timeOptions, List.find?, h1, h5, h10, h15, h20, h30]
        · by_cases h20 : m ≤ 20
          · have h30 : m ≤ 30 := by omega
            simp [getReviewLabel, spec_bucket, timeOptions, List.find?, h1, h5, h10, h15, h20, h30]
          · by_cases h30 : m ≤ 30
            · simp [getReviewLabel, spec_bucket, timeOptions, List.find?, h1, h5, h10, h15, h20, h30]
            · simp [getReviewLabel, spec_bucket, timeOptions, List.find?, h1, h5, h10, h15, h20, h30]

/-- Case description of the label-selection walk over the six buckets. -/
theorem getReviewLabel_cases (m : ℤ) :
    (m ≤ 1 ∧ getReviewLabel m = "1 min review")
    ∨ (1 < m ∧ m ≤ 5 ∧ getReviewLabel m = "5 min review")
    ∨ (5 < m ∧ m ≤ 10 ∧ getReviewLabel m = "10 min review")
    ∨ (10 < m ∧ m ≤ 15 ∧ getReviewLabel m = "15 min review")
    ∨ (15 < m ∧ m ≤ 20 ∧ getReviewLabel m = "20 min review")
    ∨ (20 < m ∧ getReviewLabel m = "30 min review") := by
  have h := getReviewLabel_eq_spec m
  by_cases h1 : m ≤ 1
  · refine Or.inl ⟨h1, ?_⟩
    rw [h]; simp [spec_bucket, timeOptions, h1]; decide
  · by_cases h5 : m ≤ 5
    · refine Or.inr (Or.inl ⟨by omega, h5, ?_⟩)
      rw [h]; simp [spec_bucket, timeOptions, h1, h5]; decide
    · by_cases h10 : m ≤ 10
      · refine Or.inr (Or.inr (Or.inl ⟨by omega, h10, ?_⟩))
        rw [h]; simp [spec_bucket, timeOptions, h1, h5, h10]; decide
      · by_cases h15 : m ≤ 15
        · refine Or.inr (Or.inr (Or.inr (Or.inl ⟨by omega, h15, ?_⟩)))
          rw [h]; simp [spec_bucket, timeOptions, h1, h5, h10, h15]; decide
        · by_cases h20 : m ≤ 20
          · refine Or.inr (Or.inr (Or.inr (Or.inr (Or.inl ⟨by omega, h20, ?_⟩))))
            rw [h]; simp [spec_bucket, timeOptions, h1, h5, h10, h15, h20]; decide
          · refine Or.inr (Or.inr (Or.inr (Or.inr (Or.inr ⟨by omega, ?_⟩))))
            by_cases h30 : m ≤ 30
            · rw [h]; simp [spec_bucket, timeOptions, h1, h5, h10, h15, h20, h30]; decide
            · rw [h]; simp [spec_bucket, timeOptions, h1, h5, h10, h15, h20, h30]; decide

/-- C1: for every snapshot the classifier returns an integer minutes value
at least 1, and for every minutes value the chosen label names the minimum
element of the ordered bucket set at least minutes, with 30 when minutes
exceeds every element, per the ceiling-to-bucket rule of spec_bucket. -/
theorem reviewTime_ge_one_and_label_min_bucket
    (pullRequest : PullRequestSnapshot) (commits : List Commit)
    (files : List FileChange) (minutes : ℤ) :
    1 ≤ calculateReviewTime pullRequest commits files
    ∧ getReviewLabel minutes = toString (spec_bucket minutes) ++ " min review" := by
  constructor
  · unfold calculateReviewTime
    split
    · exact le_refl 1
    · exact le_max_left 1 _
  · exact getReviewLabel_eq_spec minutes

/-- C2: a pull request with a non-empty file list in which every file is
documentation or metadata gets exactly 1 minute and the label 1 min review,
regardless of the commits and the description. -/
theorem docsOnly_reviewTime_one
    (pullRequest : PullRequestSnapshot) (commits : List Commit)
    (files : List FileChange) (hne : files ≠ [])
    (hdoc : ∀ f ∈ files, isDocOrMetadataFile f.filename = true) :
    calculateReviewTime pullRequest commits files = 1
    ∧ getReviewLabel (calculateReviewTime pullRequest commits files) = "1 min review" := by
  have hall : files.all (fun f => isDocOrMetadataFile f.filename) = true := by
    rw [List.all_eq_true]; exact hdoc
  have h1 : calculateReviewTime pullRequest commits files = 1 := by
    simp [calculateReviewTime, hall]
  refine ⟨h1, ?_⟩
  rw [h1]
  simp [getReviewLabel, timeOptions]
  decide

/-- Witness for C2 at a concrete documentation-only snapshot. -/
theorem docsOnly_reviewTime_one_witness :
    ([⟨"README.md", 3, 1⟩] : List FileChange) ≠ []
    ∧ (∀ f ∈ ([⟨"README.md", 3, 1⟩] : List FileChange),
        isDocOrMetadataFile f.filename = true)
    ∧ (calculateReviewTime ⟨none⟩ [⟨"feat: x", none⟩] [⟨"README.md", 3, 1⟩] = 1
        ∧ getReviewLabel
            (calculateReviewTime ⟨none⟩ [⟨"feat: x", none⟩] [⟨"README.md", 3, 1⟩])
            = "1 min review") :=
  ⟨by decide, by decide,
    docsOnly_reviewTime_one ⟨none⟩ [⟨"feat: x", none⟩] [⟨"README.md", 3, 1⟩]
      (by decide) (by decide)⟩

/-- Length of a filtered list times a constant, as a sum of per-element
if-contributions. -/
theorem filter_length_mul {α : Type} (p : α → Bool) (l : List α) (c : ℚ) :
    ((l.filter p).length : ℚ) * c = (l.map (fun x => if p x then c else 0)).sum := by
  induction l with
  | nil => simp
  | cons x xs ih =>
    by_cases h : p x
    · simp only [List.filter_cons, h, if_pos, List.length_cons, List.map_cons, List.sum_cons]
      push_cast
      rw [add_mul, one_mul, ih]
      ring
    · simp only [List.filter_cons, h, Bool.false_eq_true, if_false, List.map_cons, List.sum_cons, ih]
      simp [h]

/-- C3 amended: the commit factor decomposes per commit into the fixed type
weight (feat 2, fix 1.5, refactor 2.5, revert 1, docs 0.5), plus 0.5 when
the first line is conventional for none of the eleven vocabulary types, plus
1 for a commit with stats present and over 300 changed lines; the size check
is skipped for a commit without stats. Commits that parse with a
non-weighted vocabulary type such as style or test contribute nothing. -/
theorem commitFactor_eq_sum_contributions (commits : List Commit) :
    commitFactor commits = (commits.map spec_commitContribution).sum := by
  unfold commitFactor typeWeightScore unconventionalCommits largeCommits
  rw [foldl_add_map, zero_add,
    filter_length_mul (fun c => !isConventional (firstLineL c.message)) commits (1/2),
    filter_length_mul isLargeCommit commits 1]
  induction commits with
  | nil => simp
  | cons c cs ih =>
    simp only [List.map_cons, List.sum_cons]
    rw [show ∀ a b x y z w : ℚ, (a + x) + (b + y) + (z + w) = (a + b + z) + (x + y + w)
      from by intro a b x y z w; ring]
    rw [ih]
    by_cases hc : isConventional (firstLineL c.message) <;>
      by_cases hl : isLargeCommit c <;>
        simp [spec_commitContribution, hc, hl]

/-- C3 counterexample: the commit style colon tidy is conventional, so the
code adds nothing for it, while the claim as stated adds 0.5 through the
unconventional counter because its type is outside the five weighted ones. -/
theorem commitFactor_claim_counterexample :
    commitFactor [⟨"style: tidy", none⟩]
      ≠ ([(⟨"style: tidy", none⟩ : Commit)].map claim_commitContribution).sum := by
  have hf : matchesType "feat" (firstLineL "style: tidy") = false := by decide
  have hx : matchesType "fix" (firstLineL "style: tidy") = false := by decide
  have hr : matchesType "refactor" (firstLineL "style: tidy") = false := by decide
  have hv : matchesType "revert" (firstLineL "style: tidy") = false := by decide
  have hd : matchesType "docs" (firstLineL "style: tidy") = false := by decide
  have hw : typeWeight (firstLineL "style: tidy") = 0 := by
    simp [typeWeight, hf, hx, hr, hv, hd]
  have hu : unconventionalCommits [⟨"style: tidy", none⟩] = 0 := by decide
  have hl : largeCommits [⟨"style: tidy", none⟩] = 0 := by decide
  have h1 : commitFactor [⟨"style: tidy", none⟩] = 0 := by
    simp [commitFactor, typeWeightScore, List.foldl, hw, hu, hl]
  have h2 : ([(⟨"style: tidy", none⟩ : Commit)].map claim_commitContribution).sum = 1/2 := by
    simp [claim_commitContribution, hw, hf, hx, hr, hv, hd, isLargeCommit]
  rw [h1, h2]
  norm_num

/-- Every value of the label-selection walk is one of the six fixed names
and matches the time-label pattern. -/
theorem getReviewLabel_is_time_label (m : ℤ) :
    isTimeLabel (getReviewLabel m) = true ∧ getReviewLabel m ∈ bucketLabels := by
  rcases getReviewLabel_cases m with ⟨_, h⟩ | ⟨_, _, h⟩ | ⟨_, _, h⟩ | ⟨_, _, h⟩ | ⟨_, _, h⟩ | ⟨_, h⟩ <;>
    rw [h] <;> exact ⟨by decide, by decide⟩

/-- C4: after the synchronizer runs for the label computed from any
snapshot, exactly one label matching the time pattern is attached to the
pull request; it equals the target, which is one of the six fixed names. -/
theorem syncLabels_exactly_one_time_label
    (labels : Finset String) (pullRequest : PullRequestSnapshot)
    (commits : List Commit) (files : List FileChange) :
    (syncLabels labels
        (getReviewLabel (calculateReviewTime pullRequest commits files))).filter
        (fun n => isTimeLabel n = true)
      = {getReviewLabel (calculateReviewTime pullRequest commits files)}
    ∧ getReviewLabel (calculateReviewTime pullRequest commits files) ∈ bucketLabels := by
  obtain ⟨ht, hmem⟩ :=
    getReviewLabel_is_time_label (calculateReviewTime pullRequest commits files)
  refine ⟨?_, hmem⟩
  rw [syncLabels, addLabel, removeExistingTimeLabels, Finset.filter_insert, if_pos ht,
    Finset.filter_filter]
  have hempty : labels.filter
      (fun a => (¬ isTimeLabel a = true) ∧ isTimeLabel a = true) = ∅ := by
    apply Finset.filter_false_of_mem
    intro x _
    tauto
  rw [hempty]
  rfl

/-- C5: the label-synchronizing phase is idempotent on the label set for
every initial set and target, and its removal phase is a no-op on a set
holding zero labels matching the time pattern. -/
theorem syncLabels_idempotent (labels : Finset String) (target : String) :
    syncLabels (syncLabels labels target) target = syncLabels labels target
    ∧ ((∀ n ∈ labels, isTimeLabel n = false)
        → removeExistingTimeLabels labels = labels) := by
  constructor
  · ext x
    simp [syncLabels, addLabel, removeExistingTimeLabels]
    tauto
  · intro h
    apply Finset.filter_true_of_mem
    intro x hx
    simp [h x hx]

/-- Evaluation of scenario B of the spec: one code file src slash app.ts
with 400 added lines and one conventional feat commit carrying stats of 400
added lines, with no description. -/
theorem scenarioB_value :
    totalScore ⟨none⟩ [⟨"feat(core): add x", some ⟨400, 0⟩⟩] [⟨"src/app.ts", 400, 0⟩] = 10
    ∧ calculateReviewTime ⟨none⟩ [⟨"feat(core): add x", some ⟨400, 0⟩⟩]
        [⟨"src/app.ts", 400, 0⟩] = 10 := by
  have hd : isDocOrMetadataFile "src/app.ts" = false := by decide
  have h1 : fileCountFactor [⟨"src/app.ts", 400, 0⟩] = 1/2 := by
    simp [fileCountFactor, hd, min_def] <;> norm_num
  have h2 : lineVolumeFactor [⟨"src/app.ts", 400, 0⟩] = 4 := by
    simp [lineVolumeFactor, addedLines, deletedLines, hd, min_def] <;> norm_num
  have h3 : complexFactor [⟨"src/app.ts", 400, 0⟩] = 1/2 := by
    have hc : complexFileChanges [⟨"src/app.ts", 400, 0⟩] = 1 := by decide
    simp [complexFactor, hc] <;> norm_num
  have h4 : commitFactor [⟨"feat(core): add x", some ⟨400, 0⟩⟩] = 3 := by
    have hfe : matchesType "feat" (firstLineL "feat(core): add x") = true := by decide
    have hu : unconventionalCommits [⟨"feat(core): add x", some ⟨400, 0⟩⟩] = 0 := by decide
    have hl : largeCommits [⟨"feat(core): add x", some ⟨400, 0⟩⟩] = 1 := by decide
    simp [commitFactor, typeWeightScore, List.foldl, typeWeight, hfe, hu, hl] <;> norm_num
  have h5 : descriptionFactor (⟨none⟩ : PullRequestSnapshot) = 2 := by
    simp [descriptionFactor]
  have ht : totalScore ⟨none⟩ [⟨"feat(core): add x", some ⟨400, 0⟩⟩]
      [⟨"src/app.ts", 400, 0⟩] = 10 := by
    rw [totalScore, h1, h2, h3, h4, h5]
    norm_num
  refine ⟨ht, ?_⟩
  have hall : (([⟨"src/app.ts", 400, 0⟩] : List FileChange).all
      (fun f => isDocOrMetadataFile f.filename)) = false := by decide
  have hfloor : jsRound (10 : ℚ) = 10 := by norm_num [jsRound]
  rw [calculateReviewTime]
  rw [hall]
  rw [ht, hfloor]
  decide

/-- C6 counterexample: for the scenario of the claim the classifier does
not produce 7 minutes. -/
theorem scenarioB_not_seven :
    ¬ calculateReviewTime ⟨none⟩ [⟨"feat(core): add x", some ⟨400, 0⟩⟩]
        [⟨"src/app.ts", 400, 0⟩] = 7 := by
  rw [scenarioB_value.2]
  decide

/-- C6 amended: the scenario scores 10, because on top of the stated
factors (code file 0.5, lines 4, complex extension 0.5, feat commit 2) the
400-line commit is large, adding 1, and the missing description adds 2; so
minutes is 10, the bucket is 10 min review and the color is yellow. -/
theorem scenarioB_eval :
    totalScore ⟨none⟩ [⟨"feat(core): add x", some ⟨400, 0⟩⟩] [⟨"src/app.ts", 400, 0⟩] = 10
    ∧ calculateReviewTime ⟨none⟩ [⟨"feat(core): add x", some ⟨400, 0⟩⟩]
        [⟨"src/app.ts", 400, 0⟩] = 10
    ∧ getReviewLabel (calculateReviewTime ⟨none⟩ [⟨"feat(core): add x", some ⟨400, 0⟩⟩]
        [⟨"src/app.ts", 400, 0⟩]) = "10 min review"
    ∧ getLabelColor (calculateReviewTime ⟨none⟩ [⟨"feat(core): add x", some ⟨400, 0⟩⟩]
        [⟨"src/app.ts", 400, 0⟩]) = "ffd700" := by
  refine ⟨scenarioB_value.1, scenarioB_value.2, ?_, ?_⟩ <;> rw [scenarioB_value.2] <;> decide

/-- Evaluation of the remaining factors of the empty-file-list scenario of
claim C7: one feat commit without stats and a missing description. -/
theorem emptyFiles_remaining_factors :
    max 1 (jsRound (fileCountFactor [] + lineVolumeFactor [] + complexFactor []
        + commitFactor [⟨"feat: add stuff", none⟩]
        + descriptionFactor (⟨none⟩ : PullRequestSnapshot))) = 4 := by
  have hf : fileCountFactor [] = 0 := by
    simp [fileCountFactor, min_def]
  have hl : lineVolumeFactor [] = 0 := by
    simp [lineVolumeFactor, addedLines, deletedLines, min_def]
  have hx : complexFactor [] = 0 := by
    simp [complexFactor, complexFileChanges]
  have hc : commitFactor [⟨"feat: add stuff", none⟩] = 2 := by
    have hfe : matchesType "feat" (firstLineL "feat: add stuff") = true := by decide
    have hu : unconventionalCommits [⟨"feat: add stuff", none⟩] = 0 := by decide
    have hlg : largeCommits [⟨"feat: add stuff", none⟩] = 0 := by decide
    simp [commitFactor, typeWeightScore, List.foldl, typeWeight, hfe, hu, hlg] <;> norm_num
  have hd : descriptionFactor (⟨none⟩ : PullRequestSnapshot) = 2 := by
    simp [descriptionFactor]
  rw [hf, hl, hx, hc, hd]
  have hfloor : jsRound ((0 : ℚ) + 0 + 0 + 2 + 2) = 4 := by norm_num [jsRound]
  rw [hfloor]
  decide

/-- C7 counterexample: with an empty file list and one feat commit with a
missing description, the classifier returns 1 rather than the accumulated
value 4 of the remaining factors, because the empty list makes the
documentation-only test vacuously true. -/
theorem emptyFiles_factors_counterexample :
    ¬ calculateReviewTime ⟨none⟩ [⟨"feat: add stuff", none⟩] []
        = max 1 (jsRound (fileCountFactor [] + lineVolumeFactor [] + complexFactor []
            + commitFactor [⟨"feat: add stuff", none⟩]
            + descriptionFactor (⟨none⟩ : PullRequestSnapshot))) := by
  rw [emptyFiles_remaining_factors]
  have h0 : calculateReviewTime ⟨none⟩ [⟨"feat: add stuff", none⟩] [] = 1 := by
    simp [calculateReviewTime]
  rw [h0]
  decide

/-- C7 amended: an empty file list triggers the documentation-only fast
path, returning 1 regardless of commits and description; an empty commit
list contributes zero through the commit factor while every remaining
factor still accumulates as in the non-empty case; neither case errors. -/
theorem emptyLists_behavior (pullRequest : PullRequestSnapshot)
    (commits : List Commit) (files : List FileChange) :
    calculateReviewTime pullRequest commits [] = 1
    ∧ commitFactor [] = 0
    ∧ calculateReviewTime pullRequest [] files
        = (if files.all (fun f => isDocOrMetadataFile f.filename) then 1
            else max 1 (jsRound (fileCountFactor files + lineVolumeFactor files
                + complexFactor files + descriptionFactor pullRequest))) := by
  have hc0 : commitFactor [] = 0 := by
    simp [commitFactor, typeWeightScore, unconventionalCommits, largeCommits]
  refine ⟨by simp [calculateReviewTime], hc0, ?_⟩
  by_cases hall : files.all (fun f => isDocOrMetadataFile f.filename)
  · simp [calculateReviewTime, hall]
  · simp only [calculateReviewTime, hall, Bool.false_eq_true, if_false, totalScore, hc0,
      add_zero]

/-- C8: the label color is green exactly when minutes is at most 1, yellow
exactly when minutes is between 2 and 10, red exactly when minutes exceeds
10, and the mapping is monotone in minutes; it is a function of the raw
minutes value alone. -/
theorem labelColor_thresholds (m n : ℤ) (h : m ≤ n) :
    (getLabelColor m = "2da44e" ↔ m ≤ 1)
    ∧ (getLabelColor m = "ffd700" ↔ (1 < m ∧ m ≤ 10))
    ∧ (getLabelColor m = "d73a4a" ↔ 10 < m)
    ∧ colorRank (getLabelColor m) ≤ colorRank (getLabelColor n) := by
  by_cases h1 : m ≤ 1 <;> by_cases h10 : m ≤ 10 <;>
    by_cases h1' : n ≤ 1 <;> by_cases h10' : n ≤ 10 <;>
      simp +decide [getLabelColor, colorRank, h1, h10, h1', h10'] <;> omega

/-- Witness for C8 at minutes 2 and 11. -/
theorem labelColor_thresholds_witness :
    (2 : ℤ) ≤ 11
    ∧ ((getLabelColor 2 = "2da44e" ↔ (2 : ℤ) ≤ 1)
        ∧ (getLabelColor 2 = "ffd700" ↔ ((1 : ℤ) < 2 ∧ (2 : ℤ) ≤ 10))
        ∧ (getLabelColor 2 = "d73a4a" ↔ (10 : ℤ) < 2)
        ∧ colorRank (getLabelColor 2) ≤ colorRank (getLabelColor 11)) :=
  ⟨by decide, labelColor_thresholds 2 11 (by decide)⟩

/-- Contribution of one more file to the weighted added lines. -/
theorem addedLines_cons (f : FileChange) (fs : List FileChange) :
    addedLines (f :: fs)
      = (f.additions : ℚ) * (if isDocOrMetadataFile f.filename then 1/5 else 1)
        + addedLines fs := by
  unfold addedLines
  rw [List.foldl_cons, foldl_add_map (fun f => (f.additions : ℚ)
    * (if isDocOrMetadataFile f.filename then 1/5 else 1)) fs,
    foldl_add_map (fun f => (f.additions : ℚ)
    * (if isDocOrMetadataFile f.filename then 1/5 else 1)) fs]
  ring

/-- Contribution of one more file to the weighted deleted lines. -/
theorem deletedLines_cons (f : FileChange) (fs : List FileChange) :
    deletedLines (f :: fs)
      = (f.deletions : ℚ) * (if isDocOrMetadataFile f.filename then 1/5 else 1)
        + deletedLines fs := by
  unfold deletedLines
  rw [List.foldl_cons, foldl_add_map (fun f => (f.deletions : ℚ)
    * (if isDocOrMetadataFile f.filename then 1/5 else 1)) fs,
    foldl_add_map (fun f => (f.deletions : ℚ)
    * (if isDocOrMetadataFile f.filename then 1/5 else 1)) fs]
  ring

/-- C9: holding additions and deletions equal, a documentation or metadata
file moves the weighted line total by exactly one fifth of what the same
file classified as code moves it; the factor is the weighted total times
0.01 and is capped at 10. -/
theorem docLines_fifth_weight (fs : List FileChange) (f g : FileChange)
    (ha : f.additions = g.additions) (hd : f.deletions = g.deletions)
    (hf : isDocOrMetadataFile f.filename = true)
    (hg : isDocOrMetadataFile g.filename = false) :
    (addedLines (f :: fs) + deletedLines (f :: fs))
        - (addedLines fs + deletedLines fs)
      = (1/5) * ((addedLines (g :: fs) + deletedLines (g :: fs))
        - (addedLines fs + deletedLines fs))
    ∧ lineVolumeFactor fs ≤ 10
    ∧ ((addedLines fs + deletedLines fs) * (1/100) ≤ 10
        → lineVolumeFactor fs = (addedLines fs + deletedLines fs) * (1/100)) := by
  refine ⟨?_, min_le_right _ _, fun hle => min_eq_left hle⟩
  rw [addedLines_cons f fs, deletedLines_cons f fs,
    addedLines_cons g fs, deletedLines_cons g fs, hf, hg, ha, hd]
  simp
  ring

/-- Witness for C9 at a markdown file against a javascript file, both with
10 added and 2 deleted lines, over an empty remaining file list. -/
theorem docLines_fifth_weight_witness :
    (⟨"a.md", 10, 2⟩ : FileChange).additions = (⟨"a.js", 10, 2⟩ : FileChange).additions
    ∧ (⟨"a.md", 10, 2⟩ : FileChange).deletions = (⟨"a.js", 10, 2⟩ : FileChange).deletions
    ∧ isDocOrMetadataFile "a.md" = true
    ∧ isDocOrMetadataFile "a.js" = false
    ∧ ((addedLines [⟨"a.md", 10, 2⟩] + deletedLines [⟨"a.md", 10, 2⟩])
          - (addedLines [] + deletedLines [])
        = (1/5) * ((addedLines [⟨"a.js", 10, 2⟩] + deletedLines [⟨"a.js", 10, 2⟩])
          - (addedLines [] + deletedLines []))
        ∧ lineVolumeFactor [] ≤ 10
        ∧ ((addedLines [] + deletedLines []) * (1/100) ≤ 10
            → lineVolumeFactor [] = (addedLines [] + deletedLines []) * (1/100))) :=
  ⟨rfl, rfl, by decide, by decide,
    docLines_fifth_weight [] ⟨"a.md", 10, 2⟩ ⟨"a.js", 10, 2⟩ rfl rfl (by decide) (by decide)⟩

/-- C10: for minutes at least 1 the color is a function of the chosen
bucket: green exactly for the 1 minute bucket, yellow exactly for the 5 and
10 minute buckets, red exactly for the 15, 20 and 30 minute buckets. -/
theorem color_determined_by_bucket (m : ℤ) (h : 1 ≤ m) :
    (getLabelColor m = "2da44e" ↔ getReviewLabel m = "1 min review")
    ∧ (getLabelColor m = "ffd700"
        ↔ (getReviewLabel m = "5 min review" ∨ getReviewLabel m = "10 min review"))
    ∧ (getLabelColor m = "d73a4a"
        ↔ (getReviewLabel m = "15 min review" ∨ getReviewLabel m = "20 min review"
            ∨ getReviewLabel m = "30 min review")) := by
  have hdistinct := getReviewLabel_cases m
  rcases hdistinct with ⟨hr, hl⟩ | ⟨hr1, hr2, hl⟩ | ⟨hr1, hr2, hl⟩ | ⟨hr1, hr2, hl⟩
    | ⟨hr1, hr2, hl⟩ | ⟨hr1, hl⟩
  · have hc : getLabelColor m = "2da44e" := by
      rw [getLabelColor, if_pos hr]
    rw [hl, hc]
    decide
  · have hc : getLabelColor m = "ffd700" := by
      rw [getLabelColor, if_neg (by omega), if_pos (by omega)]
    rw [hl, hc]
    decide
  · have hc : getLabelColor m = "ffd700" := by
      rw [getLabelColor, if_neg (by omega), if_pos (by omega)]
    rw [hl, hc]
    decide
  · have hc : getLabelColor m = "d73a4a" := by
      rw [getLabelColor, if_neg (by omega), if_neg (by omega)]
    rw [hl, hc]
    decide
  · have hc : getLabelColor m = "d73a4a" := by
      rw [getLabelColor, if_neg (by omega), if_neg (by omega)]
    rw [hl, hc]
    decide
  · have hc : getLabelColor m = "d73a4a" := by
      rw [getLabelColor, if_neg (by omega), if_neg (by omega)]
    rw [hl, hc]
    decide

/-- Witness for C10 at minutes 7, whose bucket is 10 min review and whose
color is yellow. -/
theorem color_determined_by_bucket_witness :
    (1 : ℤ) ≤ 7
    ∧ ((getLabelColor 7 = "2da44e" ↔ getReviewLabel 7 = "1 min review")
        ∧ (getLabelColor 7 = "ffd700"
            ↔ (getReviewLabel 7 = "5 min review" ∨ getReviewLabel 7 = "10 min review"))
        ∧ (getLabelColor 7 = "d73a4a"
            ↔ (getReviewLabel 7 = "15 min review" ∨ getReviewLabel 7 = "20 min review"
                ∨ getReviewLabel 7 = "30 min review"))) :=
  ⟨by decide, color_determined_by_bucket 7 (by decide)⟩
